import Mathlib

/-!
Shallow embedding of `src/strategy_engine.py` (repository `btc_real_trade`).

Modelling conventions:
* Python floats are modelled as rationals (`ℚ`); all arithmetic deciding the
  claims (ratios, comparisons, linear updates) is exact in both semantics.
* `pandas.DataFrame` is modelled as its observable projection: the list of
  column names plus the `close` column (the only column the engine reads).
* `close.rolling(w).mean()` at index `i` is defined when `i + 1 ≥ w ≥ 1`
  (pandas yields NaN otherwise); `rollingMean` returns an `Option`, and
  `process_bar` reads it with `.getD 0` at indices that its own length guard
  proves defined (for window lengths ≥ 1, the type/intent of the params).
* Python `int` fields typed `int` in the dataclass are `Nat` for the window
  lengths (pandas `rolling` rejects non-positive windows) and `Int` for the
  completed-trade counters.
* The in-place mutation of `self` is made explicit: `process_bar` returns the
  updated state together with the action list.
-/

namespace Engine

/-- One emitted trade intent, mirroring the Python action dict: keys
`op`, `side`, `size`, `price`, and (for open actions only) `notional`;
`notional = none` models absence of the key. -/
structure Action where
  op : String
  side : String
  size : ℚ
  price : ℚ
  notional : Option ℚ := none
deriving DecidableEq, Repr

/-- `StrategyParams` dataclass (lines 18-26 of `strategy_engine.py`). -/
structure StrategyParams where
  ma_fast : Nat := 10
  ma_slow : Nat := 20
  buy_pct : ℚ := 15/100
  tp1_pct : ℚ := 8/100
  tp2_pct : ℚ := 14/100
  sl_pct : ℚ := 18/100
  tp1_sell_prop : ℚ := 9/10
deriving DecidableEq, Repr

/-- `Entry` dataclass (lines 29-33). -/
structure Entry where
  price : ℚ
  size : ℚ
  tp1_done : Bool := false
deriving DecidableEq, Repr

/-- `StrategyState` dataclass (lines 36-42). -/
structure StrategyState where
  params : StrategyParams := {}
  long_entries : List Entry := []
  short_entries : List Entry := []
  completed_long_trades : Int := 0
  completed_short_trades : Int := 0
deriving DecidableEq, Repr

/-- The observable projection of the bar `DataFrame`: its column names and
its `close` column (the only data the engine consumes). -/
structure DataFrame where
  columns : List String
  close : List ℚ
deriving DecidableEq, Repr

/-- `should_stop_loss` (lines 8-15): returns `False` for `sl_pct ≤ 0`,
otherwise compares the side's pnl fraction against `-sl_pct`. -/
def should_stop_loss (entry_price current_price : ℚ) (side : String) (sl_pct : ℚ) : Bool :=
  if sl_pct ≤ 0 then false
  else
    let pnl_pct := if side = "long" then current_price / entry_price - 1
                   else entry_price / current_price - 1
    decide (pnl_pct ≤ -sl_pct)

/-- `close.rolling(w).mean()` read at index `i`: the trailing arithmetic mean
of `xs[i+1-w .. i]`, defined exactly when the window fits (`w ≥ 1`,
`i + 1 ≥ w`); pandas yields NaN at the undefined positions. -/
def rollingMean (xs : List ℚ) (w : Nat) (i : Nat) : Option ℚ :=
  if w = 0 ∨ i + 1 < w then none
  else some (((xs.drop (i + 1 - w)).take w).sum / (w : ℚ))

/-- `max(self.params.ma_fast, self.params.ma_slow, 120)` (line 76). -/
def maxPeriod (p : StrategyParams) : Nat :=
  max (max p.ma_fast p.ma_slow) 120

/-- `price = float(close.iloc[idx])` with `idx = len(close) - 1` (lines 84-85). -/
def priceOf (close : List ℚ) : ℚ :=
  close.getD (close.length - 1) 0

/-- `prev_price = float(close.iloc[idx - 1])` (line 86). -/
def prevPriceOf (close : List ℚ) : ℚ :=
  close.getD (close.length - 1 - 1) 0

/-- The bullish crossover condition (lines 98-104): previous close below both
previous moving averages, current close above both current moving averages
and above the 120-bar average. -/
def longSignal (p : StrategyParams) (close : List ℚ) : Bool :=
  let idx := close.length - 1
  let price := priceOf close
  let prev_price := prevPriceOf close
  decide (prev_price < (rollingMean close p.ma_fast (idx - 1)).getD 0) &&
  decide (price > (rollingMean close p.ma_fast idx).getD 0) &&
  decide (prev_price < (rollingMean close p.ma_slow (idx - 1)).getD 0) &&
  decide (price > (rollingMean close p.ma_slow idx).getD 0) &&
  decide (price > (rollingMean close 120 idx).getD 0)

/-- The bearish crossover condition (lines 122-128): all five inequalities
of `longSignal` reversed. -/
def shortSignal (p : StrategyParams) (close : List ℚ) : Bool :=
  let idx := close.length - 1
  let price := priceOf close
  let prev_price := prevPriceOf close
  decide (prev_price > (rollingMean close p.ma_fast (idx - 1)).getD 0) &&
  decide (price < (rollingMean close p.ma_fast idx).getD 0) &&
  decide (prev_price > (rollingMean close p.ma_slow (idx - 1)).getD 0) &&
  decide (price < (rollingMean close p.ma_slow idx).getD 0) &&
  decide (price < (rollingMean close 120 idx).getD 0)

/-- The bullish open branch (lines 107-120): append a long entry sized
`buy_amount / price`, emit the `open_long` action. -/
def openLong (s : StrategyState) (close : List ℚ) (account_value : ℚ) :
    StrategyState × List Action :=
  let price := priceOf close
  let buy_amount := account_value * s.params.buy_pct
  let size := buy_amount / price
  ({ s with long_entries := s.long_entries ++ [⟨price, size, false⟩] },
   [⟨"open_long", "buy", size, price, some buy_amount⟩])

/-- The bearish open branch (lines 131-143): append a short entry sized
`sell_amount / price`, emit the `open_short` action (no cash gate). -/
def openShort (s : StrategyState) (close : List ℚ) (account_value : ℚ) :
    StrategyState × List Action :=
  let price := priceOf close
  let sell_amount := account_value * s.params.buy_pct
  let size := sell_amount / price
  ({ s with short_entries := s.short_entries ++ [⟨price, size, false⟩] },
   [⟨"open_short", "sell", size, price, some sell_amount⟩])

/-- The body of `for i in range(len(self.long_entries)-1, -1, -1)`
(lines 145-188), on the ledger listed newest-first (i.e. reversed): the first
entry tripping a check (order: tier-1 take-profit, stop-loss, tier-2
take-profit) yields the updated reversed ledger, the action, and whether the
completed-trade counter increments; entries scanned before a hit are kept.
`none` means the loop fell through with no hit. -/
def scanLongRev (p : StrategyParams) (price : ℚ) : List Entry → Option (List Entry × Action × Bool)
  | [] => none
  | e :: rest =>
    let pnl_pct := price / e.price - 1
    if !e.tp1_done && decide (pnl_pct ≥ p.tp1_pct) then
      let sell_size := e.size * p.tp1_sell_prop
      some ({ e with tp1_done := true, size := e.size - sell_size } :: rest,
            ⟨"tp1_long", "sell", sell_size, price, none⟩, false)
    else if should_stop_loss e.price price "long" p.sl_pct then
      some (rest, ⟨"sl_long", "sell", e.size, price, none⟩, false)
    else if e.tp1_done && decide (pnl_pct ≥ p.tp2_pct) then
      some (rest, ⟨"tp2_long", "sell", e.size, price, none⟩, true)
    else
      (scanLongRev p price rest).map fun r => (e :: r.1, r.2)

/-- The body of `for i in range(len(self.short_entries)-1, -1, -1)`
(lines 190-233), with the short pnl `entry.price / price - 1` and the
`buy`-side actions; same shape as `scanLongRev`. -/
def scanShortRev (p : StrategyParams) (price : ℚ) : List Entry → Option (List Entry × Action × Bool)
  | [] => none
  | e :: rest =>
    let pnl_pct := e.price / price - 1
    if !e.tp1_done && decide (pnl_pct ≥ p.tp1_pct) then
      let buy_size := e.size * p.tp1_sell_prop
      some ({ e with tp1_done := true, size := e.size - buy_size } :: rest,
            ⟨"tp1_short", "buy", buy_size, price, none⟩, false)
    else if should_stop_loss e.price price "short" p.sl_pct then
      some (rest, ⟨"sl_short", "buy", e.size, price, none⟩, false)
    else if e.tp1_done && decide (pnl_pct ≥ p.tp2_pct) then
      some (rest, ⟨"tp2_short", "buy", e.size, price, none⟩, true)
    else
      (scanShortRev p price rest).map fun r => (e :: r.1, r.2)

/-- The exit-management phase (lines 145-235): scan the long ledger from the
most recently appended entry backwards, then the short ledger likewise; the
first hit mutates that ledger (and possibly its counter) and returns the one
action, otherwise the empty list is returned. -/
def exitScan (s : StrategyState) (price : ℚ) : StrategyState × List Action :=
  match scanLongRev s.params price s.long_entries.reverse with
  | some (rev, a, inc) =>
      ({ s with long_entries := rev.reverse,
                completed_long_trades :=
                  s.completed_long_trades + (if inc then 1 else 0) }, [a])
  | none =>
    match scanShortRev s.params price s.short_entries.reverse with
    | some (rev, a, inc) =>
        ({ s with short_entries := rev.reverse,
                  completed_short_trades :=
                    s.completed_short_trades + (if inc then 1 else 0) }, [a])
    | none => (s, [])

/-- `StrategyState.process_bar` (lines 67-235), returning the updated state
(the Python method mutates `self`) together with the action list. -/
def process_bar (s : StrategyState) (df : DataFrame) (account_value cash : ℚ) :
    StrategyState × List Action :=
  if "close" ∈ df.columns then
    if df.close.length < maxPeriod s.params + 1 then (s, [])
    else if priceOf df.close ≤ 0 then (s, [])
    else if longSignal s.params df.close
            && decide (cash ≥ account_value * s.params.buy_pct) then
      openLong s df.close account_value
    else if shortSignal s.params df.close then
      openShort s df.close account_value
    else
      exitScan s (priceOf df.close)
  else (s, [])

/-! ## Serialization (`to_json` / `from_json`, lines 44-65)

The `json.dumps` / `json.loads` string layer is elided: serialization is
modelled down to the JSON document it produces (`json.loads (json.dumps d)`
reproduces the same document, Python float repr round-tripping exactly).
Keyword-argument semantics of the dataclass constructors is modelled
faithfully: a missing key falls back to the field's default when the field
has one (`tp1_done`, every `StrategyParams` field) and is an error when it
does not (`Entry.price`, `Entry.size`); an unexpected key is an error
(`TypeError`). Numeric JSON values are read at the field's annotated type. -/

/-- A parsed JSON document (`json.loads` output). -/
inductive Json where
  | null
  | bool (b : Bool)
  | num (q : ℚ)
  | str (s : String)
  | arr (xs : List Json)
  | obj (kvs : List (String × Json))
deriving Repr

/-- `d.get(k)` on a JSON object: value of the first binding of `k`. -/
def Json.lookup (kvs : List (String × Json)) (k : String) : Option Json :=
  (kvs.find? fun kv => kv.1 = k).map fun kv => kv.2

/-- Read a JSON value as a rational number (the float fields). -/
def Json.asRat : Json → Except String ℚ
  | .num q => .ok q
  | _ => .error "expected a number"

/-- Read a JSON value as a natural number (the `int`-annotated, pandas-window
fields `ma_fast` / `ma_slow`). -/
def Json.asNat : Json → Except String Nat
  | .num q => if q.den = 1 ∧ 0 ≤ q.num then .ok q.num.toNat else .error "expected a natural number"
  | _ => .error "expected a natural number"

/-- Read a JSON value as an integer (the completed-trade counters). -/
def Json.asInt : Json → Except String Int
  | .num q => if q.den = 1 then .ok q.num else .error "expected an integer"
  | _ => .error "expected an integer"

/-- Read a JSON value as a boolean (`tp1_done`). -/
def Json.asBool : Json → Except String Bool
  | .bool b => .ok b
  | _ => .error "expected a boolean"

/-- Keyword argument with a default: a missing key yields the dataclass
default, a present key is read by `f`. -/
def kwarg (kvs : List (String × Json)) (k : String) (d : α) (f : Json → Except String α) :
    Except String α :=
  match Json.lookup kvs k with
  | none => .ok d
  | some v => f v

/-- Required keyword argument: a missing key is a `TypeError`. -/
def kwargReq (kvs : List (String × Json)) (k : String) (f : Json → Except String α) :
    Except String α :=
  match Json.lookup kvs k with
  | none => .error ("TypeError: missing required argument " ++ k)
  | some v => f v

/-- `StrategyParams(**raw["params"])`: every `StrategyParams` field has a
default, so each key is optional; an unexpected key raises `TypeError`. -/
def paramsFromJson : Json → Except String StrategyParams
  | .obj kvs =>
    if kvs.any (fun kv => kv.1 ∉ ["ma_fast", "ma_slow", "buy_pct", "tp1_pct",
                                  "tp2_pct", "sl_pct", "tp1_sell_prop"]) then
      .error "TypeError: unexpected keyword argument"
    else do
      let ma_fast ← kwarg kvs "ma_fast" 10 Json.asNat
      let ma_slow ← kwarg kvs "ma_slow" 20 Json.asNat
      let buy_pct ← kwarg kvs "buy_pct" (15/100) Json.asRat
      let tp1_pct ← kwarg kvs "tp1_pct" (8/100) Json.asRat
      let tp2_pct ← kwarg kvs "tp2_pct" (14/100) Json.asRat
      let sl_pct ← kwarg kvs "sl_pct" (18/100) Json.asRat
      let tp1_sell_prop ← kwarg kvs "tp1_sell_prop" (9/10) Json.asRat
      .ok ⟨ma_fast, ma_slow, buy_pct, tp1_pct, tp2_pct, sl_pct, tp1_sell_prop⟩
  | _ => .error "TypeError: params is not a mapping"

/-- `Entry(**e)`: `price` and `size` are required (no dataclass default),
`tp1_done` defaults to `False`; an unexpected key raises `TypeError`. -/
def entryFromJson : Json → Except String Entry
  | .obj kvs =>
    if kvs.any (fun kv => kv.1 ∉ ["price", "size", "tp1_done"]) then
      .error "TypeError: unexpected keyword argument"
    else do
      let price ← kwargReq kvs "price" Json.asRat
      let size ← kwargReq kvs "size" Json.asRat
      let tp1_done ← kwarg kvs "tp1_done" false Json.asBool
      .ok ⟨price, size, tp1_done⟩
  | _ => .error "TypeError: entry is not a mapping"

/-- The body of `[Entry(**e) for e in ...]`: left-to-right, the first
exception propagates. -/
def entriesFromJsonList : List Json → Except String (List Entry)
  | [] => .ok []
  | x :: xs => do
    let e ← entryFromJson x
    let rest ← entriesFromJsonList xs
    .ok (e :: rest)

/-- `[Entry(**e) for e in raw.get(key, [])]`. -/
def entriesFromJson : Json → Except String (List Entry)
  | .arr xs => entriesFromJsonList xs
  | _ => .error "TypeError: entries is not a list"

/-- A completed-trade counter: `raw.get(key, 0)`. -/
def counterFromJson (kvs : List (String × Json)) (k : String) : Except String Int :=
  kwarg kvs k 0 Json.asInt

/-- `StrategyParams` rendered by `asdict` (all seven fields). -/
def StrategyParams.toJson (p : StrategyParams) : Json :=
  .obj [("ma_fast", .num p.ma_fast), ("ma_slow", .num p.ma_slow),
        ("buy_pct", .num p.buy_pct), ("tp1_pct", .num p.tp1_pct),
        ("tp2_pct", .num p.tp2_pct), ("sl_pct", .num p.sl_pct),
        ("tp1_sell_prop", .num p.tp1_sell_prop)]

/-- An `Entry` rendered by `asdict`. -/
def Entry.toJson (e : Entry) : Json :=
  .obj [("price", .num e.price), ("size", .num e.size), ("tp1_done", .bool e.tp1_done)]

/-- `StrategyState.to_json` (lines 44-49), modelled down to the JSON document
`json.dumps` serializes. -/
def StrategyState.to_json (s : StrategyState) : Json :=
  .obj [("params", s.params.toJson),
        ("long_entries", .arr (s.long_entries.map Entry.toJson)),
        ("short_entries", .arr (s.short_entries.map Entry.toJson)),
        ("completed_long_trades", .num s.completed_long_trades),
        ("completed_short_trades", .num s.completed_short_trades)]

/-- `StrategyState.from_json` (lines 51-65): `raw.get` with defaults for
`params` (`{}`), the entry lists (`[]`) and the counters (`0`); a non-object
document fails (`raw.get` on a non-dict raises `AttributeError`). -/
def StrategyState.from_json : Json → Except String StrategyState
  | .obj kvs => do
    let params ← paramsFromJson ((Json.lookup kvs "params").getD (.obj []))
    let long_entries ← entriesFromJson ((Json.lookup kvs "long_entries").getD (.arr []))
    let short_entries ← entriesFromJson ((Json.lookup kvs "short_entries").getD (.arr []))
    let completed_long_trades ← counterFromJson kvs "completed_long_trades"
    let completed_short_trades ← counterFromJson kvs "completed_short_trades"
    .ok ⟨params, long_entries, short_entries, completed_long_trades, completed_short_trades⟩
  | _ => .error "AttributeError: snapshot is not an object"

/-! ## Division-checked variant of `process_bar`

`process_bar_checked` is `process_bar` with every run-time division of the
Python code (`buy_amount / price`, `sell_amount / price`, the long pnl by
`entry.price`, the short pnl by `price`, and the two ratios inside
`should_stop_loss`) replaced by `divPos`, which fails unless the divisor is
positive at the moment the division executes. Its agreement with
`process_bar` under the entry-price precondition is the no-exception /
division-safety statement. -/

/-- Division recorded as defined only for a positive divisor. -/
def divPos (a b : ℚ) : Option ℚ :=
  if 0 < b then some (a / b) else none

/-- `should_stop_loss` with its division checked. -/
def should_stop_loss_checked (entry_price current_price : ℚ) (side : String) (sl_pct : ℚ) :
    Option Bool :=
  if sl_pct ≤ 0 then some false
  else
    (if side = "long" then divPos current_price entry_price
     else divPos entry_price current_price).map
      fun ratio => decide (ratio - 1 ≤ -sl_pct)

/-- `scanLongRev` with its divisions checked. -/
def scanLongRevChecked (p : StrategyParams) (price : ℚ) :
    List Entry → Option (Option (List Entry × Action × Bool))
  | [] => some none
  | e :: rest => do
    let ratio ← divPos price e.price
    let pnl_pct := ratio - 1
    if !e.tp1_done && decide (pnl_pct ≥ p.tp1_pct) then
      let sell_size := e.size * p.tp1_sell_prop
      some (some ({ e with tp1_done := true, size := e.size - sell_size } :: rest,
                  ⟨"tp1_long", "sell", sell_size, price, none⟩, false))
    else do
      let sl ← should_stop_loss_checked e.price price "long" p.sl_pct
      if sl then
        some (some (rest, ⟨"sl_long", "sell", e.size, price, none⟩, false))
      else if e.tp1_done && decide (pnl_pct ≥ p.tp2_pct) then
        some (some (rest, ⟨"tp2_long", "sell", e.size, price, none⟩, true))
      else do
        let r ← scanLongRevChecked p price rest
        some (r.map fun x => (e :: x.1, x.2))

/-- `scanShortRev` with its divisions checked. -/
def scanShortRevChecked (p : StrategyParams) (price : ℚ) :
    List Entry → Option (Option (List Entry × Action × Bool))
  | [] => some none
  | e :: rest => do
    let ratio ← divPos e.price price
    let pnl_pct := ratio - 1
    if !e.tp1_done && decide (pnl_pct ≥ p.tp1_pct) then
      let buy_size := e.size * p.tp1_sell_prop
      some (some ({ e with tp1_done := true, size := e.size - buy_size } :: rest,
                  ⟨"tp1_short", "buy", buy_size, price, none⟩, false))
    else do
      let sl ← should_stop_loss_checked e.price price "short" p.sl_pct
      if sl then
        some (some (rest, ⟨"sl_short", "buy", e.size, price, none⟩, false))
      else if e.tp1_done && decide (pnl_pct ≥ p.tp2_pct) then
        some (some (rest, ⟨"tp2_short", "buy", e.size, price, none⟩, true))
      else do
        let r ← scanShortRevChecked p price rest
        some (r.map fun x => (e :: x.1, x.2))

/-- `exitScan` with its divisions checked. -/
def exitScanChecked (s : StrategyState) (price : ℚ) : Option (StrategyState × List Action) := do
  match ← scanLongRevChecked s.params price s.long_entries.reverse with
  | some (rev, a, inc) =>
      some ({ s with long_entries := rev.reverse,
                     completed_long_trades :=
                       s.completed_long_trades + (if inc then 1 else 0) }, [a])
  | none =>
    match ← scanShortRevChecked s.params price s.short_entries.reverse with
    | some (rev, a, inc) =>
        some ({ s with short_entries := rev.reverse,
                       completed_short_trades :=
                         s.completed_short_trades + (if inc then 1 else 0) }, [a])
    | none => some (s, [])

/-- `openLong` with its division checked. -/
def openLongChecked (s : StrategyState) (close : List ℚ) (account_value : ℚ) :
    Option (StrategyState × List Action) := do
  let price := priceOf close
  let buy_amount := account_value * s.params.buy_pct
  let size ← divPos buy_amount price
  some ({ s with long_entries := s.long_entries ++ [⟨price, size, false⟩] },
        [⟨"open_long", "buy", size, price, some buy_amount⟩])

/-- `openShort` with its division checked. -/
def openShortChecked (s : StrategyState) (close : List ℚ) (account_value : ℚ) :
    Option (StrategyState × List Action) := do
  let price := priceOf close
  let sell_amount := account_value * s.params.buy_pct
  let size ← divPos sell_amount price
  some ({ s with short_entries := s.short_entries ++ [⟨price, size, false⟩] },
        [⟨"open_short", "sell", size, price, some sell_amount⟩])

/-- `process_bar` with every run-time division checked for a positive
divisor; `none` marks a division whose divisor was not positive where the
Python code would divide. -/
def process_bar_checked (s : StrategyState) (df : DataFrame) (account_value cash : ℚ) :
    Option (StrategyState × List Action) :=
  if "close" ∈ df.columns then
    if df.close.length < maxPeriod s.params + 1 then some (s, [])
    else if priceOf df.close ≤ 0 then some (s, [])
    else if longSignal s.params df.close
            && decide (cash ≥ account_value * s.params.buy_pct) then
      openLongChecked s df.close account_value
    else if shortSignal s.params df.close then
      openShortChecked s df.close account_value
    else
      exitScanChecked s (priceOf df.close)
  else some (s, [])

/-! ## Spec-side description of the exit scan (§4.3 / §4.4 step 5)

The following definitions are written from the specification's words — scan
long entries newest-to-oldest, then short entries, evaluate the checks in the
order tier-1 take-profit / stop-loss / tier-2 take-profit, and stop at the
first condition that trips system-wide — to be compared with `exitScan`,
which was transcribed from the loops of the source. -/

/-- One of the three exit conditions trips on a long entry. -/
def longHit (p : StrategyParams) (price : ℚ) (e : Entry) : Bool :=
  (!e.tp1_done && decide (price / e.price - 1 ≥ p.tp1_pct)) ||
  should_stop_loss e.price price "long" p.sl_pct ||
  (e.tp1_done && decide (price / e.price - 1 ≥ p.tp2_pct))

/-- One of the three exit conditions trips on a short entry. -/
def shortHit (p : StrategyParams) (price : ℚ) (e : Entry) : Bool :=
  (!e.tp1_done && decide (e.price / price - 1 ≥ p.tp1_pct)) ||
  should_stop_loss e.price price "short" p.sl_pct ||
  (e.tp1_done && decide (e.price / price - 1 ≥ p.tp2_pct))

/-- Spec §4.3 for a long entry: the first check that trips, in the order
tier-1 take-profit, stop-loss, tier-2 take-profit, gives the entry's
replacement in the ledger, the emitted action, and whether the side's
completed-trade counter increments. -/
def specLongOutcome (p : StrategyParams) (price : ℚ) (e : Entry) :
    List Entry × Action × Bool :=
  if !e.tp1_done && decide (price / e.price - 1 ≥ p.tp1_pct) then
    ([{ e with tp1_done := true, size := e.size - e.size * p.tp1_sell_prop }],
     ⟨"tp1_long", "sell", e.size * p.tp1_sell_prop, price, none⟩, false)
  else if should_stop_loss e.price price "long" p.sl_pct then
    ([], ⟨"sl_long", "sell", e.size, price, none⟩, false)
  else
    ([], ⟨"tp2_long", "sell", e.size, price, none⟩, true)

/-- Spec §4.3 for a short entry, mirroring `specLongOutcome`. -/
def specShortOutcome (p : StrategyParams) (price : ℚ) (e : Entry) :
    List Entry × Action × Bool :=
  if !e.tp1_done && decide (e.price / price - 1 ≥ p.tp1_pct) then
    ([{ e with tp1_done := true, size := e.size - e.size * p.tp1_sell_prop }],
     ⟨"tp1_short", "buy", e.size * p.tp1_sell_prop, price, none⟩, false)
  else if should_stop_loss e.price price "short" p.sl_pct then
    ([], ⟨"sl_short", "buy", e.size, price, none⟩, false)
  else
    ([], ⟨"tp2_short", "buy", e.size, price, none⟩, true)

/-- Spec §4.3 scan of one ledger, from the spec's words: among the entries
taken newest-first, skip the maximal prefix on which no condition trips; if
an entry with a hit follows, replace it by its outcome, keep everything else,
and stop (`none` when no condition trips on any entry). -/
def specScanSide (hit : Entry → Bool) (outcome : Entry → List Entry × Action × Bool)
    (l : List Entry) : Option (List Entry × Action × Bool) :=
  match l.reverse.span (fun e => !hit e) with
  | (_, []) => none
  | (pre, e :: post) =>
      some ((pre ++ (outcome e).1 ++ post).reverse, (outcome e).2.1, (outcome e).2.2)

/-- Spec §4.4 step 5: the combined long-then-short scan with the first
triggered condition system-wide producing the single action. -/
def specExitScan (s : StrategyState) (price : ℚ) : StrategyState × List Action :=
  match specScanSide (longHit s.params price) (specLongOutcome s.params price)
      s.long_entries with
  | some (l, a, inc) =>
      ({ s with long_entries := l,
                completed_long_trades :=
                  s.completed_long_trades + (if inc then 1 else 0) }, [a])
  | none =>
    match specScanSide (shortHit s.params price) (specShortOutcome s.params price)
        s.short_entries with
    | some (l, a, inc) =>
        ({ s with short_entries := l,
                  completed_short_trades :=
                    s.completed_short_trades + (if inc then 1 else 0) }, [a])
    | none => (s, [])

/-! ## Concrete test fixtures

`testClose` is a 121-bar constant series (no crossover fires on it);
`crossClose` is a 121-bar series ending in a fresh bullish crossover. -/

/-- 121 bars all closing at 100. -/
def testClose : List ℚ := List.replicate 121 100

/-- A bar frame carrying `testClose`. -/
def testDF : DataFrame := ⟨["close"], testClose⟩

/-- 119 bars at 100, a dip to 90, then a surge to 200: a fresh bullish
crossover on the last bar. -/
def crossClose : List ℚ := List.replicate 119 100 ++ [90, 200]

/-- A bar frame carrying `crossClose`. -/
def crossDF : DataFrame := ⟨["close"], crossClose⟩

/-- A state holding one long entry bought at 50 (deep in profit at 100). -/
def tpState : StrategyState := { long_entries := [⟨50, 1, false⟩] }

/-- A state holding one long entry at 50 whose tier-1 exit is already done. -/
def tp2State : StrategyState := { long_entries := [⟨50, 1, true⟩] }

/-- A state with `tp1_sell_prop = 1` and one long entry: its tier-1 exit
closes the whole size yet the entry stays in the ledger. -/
def retainState : StrategyState :=
  { params := { tp1_sell_prop := 1 }, long_entries := [⟨50, 1, false⟩] }

/-! ## Lemmas about the exit scans -/

lemma specLongOutcome_fst_reverse (p : StrategyParams) (price : ℚ) (e : Entry) :
    (specLongOutcome p price e).1.reverse = (specLongOutcome p price e).1 := by
  unfold specLongOutcome
  split
  · rfl
  · split <;> rfl

lemma specShortOutcome_fst_reverse (p : StrategyParams) (price : ℚ) (e : Entry) :
    (specShortOutcome p price e).1.reverse = (specShortOutcome p price e).1 := by
  unfold specShortOutcome
  split
  · rfl
  · split <;> rfl

lemma scanLongRev_cons_hit (p : StrategyParams) (price : ℚ) (e : Entry) (l : List Entry)
    (h : longHit p price e = true) :
    scanLongRev p price (e :: l) =
      some ((specLongOutcome p price e).1 ++ l, (specLongOutcome p price e).2) := by
  simp only [longHit, Bool.or_eq_true] at h
  by_cases h1 : (!e.tp1_done && decide (price / e.price - 1 ≥ p.tp1_pct)) = true
  · simp [scanLongRev, specLongOutcome, h1]
  · by_cases h2 : should_stop_loss e.price price "long" p.sl_pct = true
    · simp [scanLongRev, specLongOutcome, h1, h2]
    · rcases h with (h | h) | h
      · exact absurd h h1
      · exact absurd h h2
      · rw [Bool.and_eq_true] at h
        simp [scanLongRev, specLongOutcome, h1, h2, h.1, h.2]

lemma scanLongRev_cons_noHit (p : StrategyParams) (price : ℚ) (e : Entry) (l : List Entry)
    (h : longHit p price e = false) :
    scanLongRev p price (e :: l) =
      (scanLongRev p price l).map fun r => (e :: r.1, r.2) := by
  simp only [longHit, Bool.or_eq_false_iff] at h
  obtain ⟨⟨h1, h2⟩, h3⟩ := h
  simp [scanLongRev, h1, h2, h3]

lemma scanLongRev_none (p : StrategyParams) (price : ℚ) (m : List Entry)
    (h : ∀ x ∈ m, longHit p price x = false) :
    scanLongRev p price m = none := by
  induction m with
  | nil => rfl
  | cons e m ih =>
    rw [scanLongRev_cons_noHit p price e m (h e (List.mem_cons_self e m)),
        ih fun x hx => h x (List.mem_cons_of_mem e hx)]
    rfl

lemma scanLongRev_first (p : StrategyParams) (price : ℚ) (pre : List Entry) (e : Entry)
    (post : List Entry) (hpre : ∀ x ∈ pre, longHit p price x = false)
    (hhit : longHit p price e = true) :
    scanLongRev p price (pre ++ e :: post) =
      some (pre ++ (specLongOutcome p price e).1 ++ post, (specLongOutcome p price e).2) := by
  induction pre with
  | nil => simpa using scanLongRev_cons_hit p price e post hhit
  | cons x pre ih =>
    rw [List.cons_append,
        scanLongRev_cons_noHit p price x _ (hpre x (List.mem_cons_self x pre)),
        ih fun y hy => hpre y (List.mem_cons_of_mem x hy)]
    simp

lemma scanShortRev_cons_hit (p : StrategyParams) (price : ℚ) (e : Entry) (l : List Entry)
    (h : shortHit p price e = true) :
    scanShortRev p price (e :: l) =
      some ((specShortOutcome p price e).1 ++ l, (specShortOutcome p price e).2) := by
  simp only [shortHit, Bool.or_eq_true] at h
  by_cases h1 : (!e.tp1_done && decide (e.price / price - 1 ≥ p.tp1_pct)) = true
  · simp [scanShortRev, specShortOutcome, h1]
  · by_cases h2 : should_stop_loss e.price price "short" p.sl_pct = true
    · simp [scanShortRev, specShortOutcome, h1, h2]
    · rcases h with (h | h) | h
      · exact absurd h h1
      · exact absurd h h2
      · rw [Bool.and_eq_true] at h
        simp [scanShortRev, specShortOutcome, h1, h2, h.1, h.2]

lemma scanShortRev_cons_noHit (p : StrategyParams) (price : ℚ) (e : Entry) (l : List Entry)
    (h : shortHit p price e = false) :
    scanShortRev p price (e :: l) =
      (scanShortRev p price l).map fun r => (e :: r.1, r.2) := by
  simp only [shortHit, Bool.or_eq_false_iff] at h
  obtain ⟨⟨h1, h2⟩, h3⟩ := h
  simp [scanShortRev, h1, h2, h3]

lemma scanShortRev_none (p : StrategyParams) (price : ℚ) (m : List Entry)
    (h : ∀ x ∈ m, shortHit p price x = false) :
    scanShortRev p price m = none := by
  induction m with
  | nil => rfl
  | cons e m ih =>
    rw [scanShortRev_cons_noHit p price e m (h e (List.mem_cons_self e m)),
        ih fun x hx => h x (List.mem_cons_of_mem e hx)]
    rfl

lemma scanShortRev_first (p : StrategyParams) (price : ℚ) (pre : List Entry) (e : Entry)
    (post : List Entry) (hpre : ∀ x ∈ pre, shortHit p price x = false)
    (hhit : shortHit p price e = true) :
    scanShortRev p price (pre ++ e :: post) =
      some (pre ++ (specShortOutcome p price e).1 ++ post, (specShortOutcome p price e).2) := by
  induction pre with
  | nil => simpa using scanShortRev_cons_hit p price e post hhit
  | cons x pre ih =>
    rw [List.cons_append,
        scanShortRev_cons_noHit p price x _ (hpre x (List.mem_cons_self x pre)),
        ih fun y hy => hpre y (List.mem_cons_of_mem x hy)]
    simp

lemma exitScan_long_first (s : StrategyState) (price : ℚ) (l₁ : List Entry) (e : Entry)
    (l₂ : List Entry) (hsplit : s.long_entries = l₁ ++ e :: l₂)
    (hpost : ∀ x ∈ l₂, longHit s.params price x = false)
    (hhit : longHit s.params price e = true) :
    exitScan s price =
      ({ s with
          long_entries := l₁ ++ (specLongOutcome s.params price e).1 ++ l₂,
          completed_long_trades := s.completed_long_trades +
            (if (specLongOutcome s.params price e).2.2 then 1 else 0) },
       [(specLongOutcome s.params price e).2.1]) := by
  have hrev : s.long_entries.reverse = l₂.reverse ++ e :: l₁.reverse := by
    rw [hsplit]; simp
  unfold exitScan
  rw [hrev, scanLongRev_first _ _ _ _ _ (fun x hx => hpost x (List.mem_reverse.mp hx)) hhit]
  simp [List.reverse_append, specLongOutcome_fst_reverse, List.append_assoc]

lemma exitScan_short_first (s : StrategyState) (price : ℚ) (l₁ : List Entry) (e : Entry)
    (l₂ : List Entry)
    (hlong : ∀ x ∈ s.long_entries, longHit s.params price x = false)
    (hsplit : s.short_entries = l₁ ++ e :: l₂)
    (hpost : ∀ x ∈ l₂, shortHit s.params price x = false)
    (hhit : shortHit s.params price e = true) :
    exitScan s price =
      ({ s with
          short_entries := l₁ ++ (specShortOutcome s.params price e).1 ++ l₂,
          completed_short_trades := s.completed_short_trades +
            (if (specShortOutcome s.params price e).2.2 then 1 else 0) },
       [(specShortOutcome s.params price e).2.1]) := by
  have hrev : s.short_entries.reverse = l₂.reverse ++ e :: l₁.reverse := by
    rw [hsplit]; simp
  unfold exitScan
  rw [scanLongRev_none _ _ _ (fun x hx => hlong x (List.mem_reverse.mp hx)), hrev,
      scanShortRev_first _ _ _ _ _ (fun x hx => hpost x (List.mem_reverse.mp hx)) hhit]
  simp [List.reverse_append, specShortOutcome_fst_reverse, List.append_assoc]

lemma exitScan_noHit (s : StrategyState) (price : ℚ)
    (hlong : ∀ x ∈ s.long_entries, longHit s.params price x = false)
    (hshort : ∀ x ∈ s.short_entries, shortHit s.params price x = false) :
    exitScan s price = (s, []) := by
  unfold exitScan
  rw [scanLongRev_none _ _ _ (fun x hx => hlong x (List.mem_reverse.mp hx)),
      scanShortRev_none _ _ _ (fun x hx => hshort x (List.mem_reverse.mp hx))]

lemma spanScan_long (p : StrategyParams) (price : ℚ) (m : List Entry) :
    scanLongRev p price m =
      match m.span (fun e => !longHit p price e) with
      | (_, []) => none
      | (pre, e :: post) =>
          some (pre ++ (specLongOutcome p price e).1 ++ post,
                (specLongOutcome p price e).2) := by
  induction m with
  | nil => rfl
  | cons x m ih =>
    rw [List.span_eq_take_drop] at *
    by_cases hx : longHit p price x = true
    · rw [scanLongRev_cons_hit p price x m hx,
          List.takeWhile_cons_of_neg (by simp [hx]),
          List.dropWhile_cons_of_neg (by simp [hx])]
      simp
    · rw [Bool.not_eq_true] at hx
      rw [scanLongRev_cons_noHit p price x m hx, ih,
          List.takeWhile_cons_of_pos (by simp [hx]),
          List.dropWhile_cons_of_pos (by simp [hx])]
      rcases hd : m.dropWhile (fun e => !longHit p price e) with _ | ⟨e, post⟩ <;> simp

lemma spanScan_short (p : StrategyParams) (price : ℚ) (m : List Entry) :
    scanShortRev p price m =
      match m.span (fun e => !shortHit p price e) with
      | (_, []) => none
      | (pre, e :: post) =>
          some (pre ++ (specShortOutcome p price e).1 ++ post,
                (specShortOutcome p price e).2) := by
  induction m with
  | nil => rfl
  | cons x m ih =>
    rw [List.span_eq_take_drop] at *
    by_cases hx : shortHit p price x = true
    · rw [scanShortRev_cons_hit p price x m hx,
          List.takeWhile_cons_of_neg (by simp [hx]),
          List.dropWhile_cons_of_neg (by simp [hx])]
      simp
    · rw [Bool.not_eq_true] at hx
      rw [scanShortRev_cons_noHit p price x m hx, ih,
          List.takeWhile_cons_of_pos (by simp [hx]),
          List.dropWhile_cons_of_pos (by simp [hx])]
      rcases hd : m.dropWhile (fun e => !shortHit p price e) with _ | ⟨e, post⟩ <;> simp

lemma specScanSide_eq_scanLongRev (p : StrategyParams) (price : ℚ) (l : List Entry) :
    specScanSide (longHit p price) (specLongOutcome p price) l =
      (scanLongRev p price l.reverse).map fun r => (r.1.reverse, r.2) := by
  unfold specScanSide
  rw [spanScan_long p price l.reverse]
  rcases hspan : l.reverse.span (fun e => !longHit p price e) with ⟨pre, suf⟩
  rcases suf with _ | ⟨e, post⟩ <;> simp

lemma specScanSide_eq_scanShortRev (p : StrategyParams) (price : ℚ) (l : List Entry) :
    specScanSide (shortHit p price) (specShortOutcome p price) l =
      (scanShortRev p price l.reverse).map fun r => (r.1.reverse, r.2) := by
  unfold specScanSide
  rw [spanScan_short p price l.reverse]
  rcases hspan : l.reverse.span (fun e => !shortHit p price e) with ⟨pre, suf⟩
  rcases suf with _ | ⟨e, post⟩ <;> simp

lemma exitScan_eq_specExitScan (s : StrategyState) (price : ℚ) :
    exitScan s price = specExitScan s price := by
  unfold exitScan specExitScan
  rw [specScanSide_eq_scanLongRev, specScanSide_eq_scanShortRev]
  rcases scanLongRev s.params price s.long_entries.reverse with _ | ⟨rev, a, inc⟩
  · rcases scanShortRev s.params price s.short_entries.reverse with _ | ⟨rev, a, inc⟩ <;> rfl
  · rfl

/-! ## The checked variant agrees with `process_bar` -/

lemma divPos_of_pos (a b : ℚ) (h : 0 < b) : divPos a b = some (a / b) := by
  simp [divPos, h]

lemma should_stop_loss_checked_long (ep cp sl : ℚ) (h : 0 < ep) :
    should_stop_loss_checked ep cp "long" sl = some (should_stop_loss ep cp "long" sl) := by
  unfold should_stop_loss_checked should_stop_loss
  by_cases hsl : sl ≤ 0 <;> simp [hsl, divPos, h]

lemma should_stop_loss_checked_short (ep cp sl : ℚ) (h : 0 < cp) :
    should_stop_loss_checked ep cp "short" sl = some (should_stop_loss ep cp "short" sl) := by
  unfold should_stop_loss_checked should_stop_loss
  by_cases hsl : sl ≤ 0 <;> simp [hsl, divPos, h]

lemma scanLongRevChecked_eq (p : StrategyParams) (price : ℚ) (l : List Entry)
    (h : ∀ e ∈ l, 0 < e.price) :
    scanLongRevChecked p price l = some (scanLongRev p price l) := by
  induction l with
  | nil => rfl
  | cons e rest ih =>
    have hp : 0 < e.price := h e (List.mem_cons_self e rest)
    have ht := ih fun x hx => h x (List.mem_cons_of_mem e hx)
    by_cases hd : e.tp1_done = true <;>
    by_cases htp1 : p.tp1_pct ≤ price / e.price - 1 <;>
    cases hsl : should_stop_loss e.price price "long" p.sl_pct <;>
    by_cases htp2 : p.tp2_pct ≤ price / e.price - 1 <;>
      simp [scanLongRevChecked, scanLongRev, divPos_of_pos _ _ hp,
            should_stop_loss_checked_long e.price price p.sl_pct hp, ht, hd, htp1, hsl, htp2]

lemma scanShortRevChecked_eq (p : StrategyParams) (price : ℚ) (l : List Entry)
    (hp : 0 < price) :
    scanShortRevChecked p price l = some (scanShortRev p price l) := by
  induction l with
  | nil => rfl
  | cons e rest ih =>
    by_cases hd : e.tp1_done = true <;>
    by_cases htp1 : p.tp1_pct ≤ e.price / price - 1 <;>
    cases hsl : should_stop_loss e.price price "short" p.sl_pct <;>
    by_cases htp2 : p.tp2_pct ≤ e.price / price - 1 <;>
      simp [scanShortRevChecked, scanShortRev, divPos_of_pos _ _ hp,
            should_stop_loss_checked_short e.price price p.sl_pct hp, ih, hd, htp1, hsl, htp2]

lemma exitScanChecked_eq (s : StrategyState) (price : ℚ)
    (hl : ∀ e ∈ s.long_entries, 0 < e.price) (hp : 0 < price) :
    exitScanChecked s price = some (exitScan s price) := by
  unfold exitScanChecked exitScan
  rw [scanLongRevChecked_eq s.params price s.long_entries.reverse
        (fun x hx => hl x (List.mem_reverse.mp hx)),
      scanShortRevChecked_eq s.params price s.short_entries.reverse hp]
  rcases scanLongRev s.params price s.long_entries.reverse with _ | ⟨rev, a, inc⟩
  · rcases scanShortRev s.params price s.short_entries.reverse with _ | ⟨rev, a, inc⟩ <;> rfl
  · rfl

lemma openLongChecked_eq (s : StrategyState) (close : List ℚ) (av : ℚ)
    (hp : 0 < priceOf close) :
    openLongChecked s close av = some (openLong s close av) := by
  simp [openLongChecked, openLong, divPos_of_pos _ _ hp]

lemma openShortChecked_eq (s : StrategyState) (close : List ℚ) (av : ℚ)
    (hp : 0 < priceOf close) :
    openShortChecked s close av = some (openShort s close av) := by
  simp [openShortChecked, openShort, divPos_of_pos _ _ hp]

/-! ## Branch lemmas for `process_bar` -/

lemma process_bar_degraded (s : StrategyState) (df : DataFrame) (av cash : ℚ)
    (h : "close" ∉ df.columns ∨ df.close.length < maxPeriod s.params + 1 ∨
         priceOf df.close ≤ 0) :
    process_bar s df av cash = (s, []) := by
  unfold process_bar
  rcases h with h | h | h
  · simp [h]
  · by_cases hc : "close" ∈ df.columns <;> simp [hc, h]
  · by_cases hc : "close" ∈ df.columns
    · by_cases hlen : df.close.length < maxPeriod s.params + 1 <;> simp [hc, hlen, h]
    · simp [hc]

lemma process_bar_openLong (s : StrategyState) (df : DataFrame) (av cash : ℚ)
    (hc : "close" ∈ df.columns)
    (hlen : ¬ df.close.length < maxPeriod s.params + 1)
    (hpx : ¬ priceOf df.close ≤ 0)
    (hsig : longSignal s.params df.close = true)
    (hcash : cash ≥ av * s.params.buy_pct) :
    process_bar s df av cash = openLong s df.close av := by
  unfold process_bar
  simp [hc, hlen, hpx, hsig, hcash]

lemma process_bar_openShort (s : StrategyState) (df : DataFrame) (av cash : ℚ)
    (hc : "close" ∈ df.columns)
    (hlen : ¬ df.close.length < maxPeriod s.params + 1)
    (hpx : ¬ priceOf df.close ≤ 0)
    (hno : (longSignal s.params df.close && decide (cash ≥ av * s.params.buy_pct)) = false)
    (hsig : shortSignal s.params df.close = true) :
    process_bar s df av cash = openShort s df.close av := by
  unfold process_bar
  simp [hc, hlen, hpx, hno, hsig]

lemma process_bar_noOpen (s : StrategyState) (df : DataFrame) (av cash : ℚ)
    (hc : "close" ∈ df.columns)
    (hlen : ¬ df.close.length < maxPeriod s.params + 1)
    (hpx : ¬ priceOf df.close ≤ 0)
    (hno : (longSignal s.params df.close && decide (cash ≥ av * s.params.buy_pct)) = false)
    (hns : shortSignal s.params df.close = false) :
    process_bar s df av cash = exitScan s (priceOf df.close) := by
  unfold process_bar
  simp [hc, hlen, hpx, hno, hns]

/-! ## Serialization lemmas -/

lemma exceptBind_ok {α β : Type} (x : α) (f : α → Except String β) :
    (Except.ok x >>= f) = f x := rfl

lemma exceptBind_error {α β : Type} (e : String) (f : α → Except String β) :
    ((Except.error e : Except String α) >>= f) = Except.error e := rfl

lemma paramsFromJson_toJson (p : StrategyParams) : paramsFromJson p.toJson = Except.ok p := by
  simp [paramsFromJson, StrategyParams.toJson, Json.lookup, kwarg, Json.asNat, Json.asRat,
        Rat.den_natCast, Rat.num_natCast, Int.toNat_natCast, exceptBind_ok]

lemma entryFromJson_toJson (e : Entry) : entryFromJson e.toJson = Except.ok e := by
  simp [entryFromJson, Entry.toJson, Json.lookup, kwarg, kwargReq, Json.asRat, Json.asBool,
        exceptBind_ok]

lemma entriesFromJson_toJson (l : List Entry) :
    entriesFromJson (.arr (l.map Entry.toJson)) = Except.ok l := by
  induction l with
  | nil => rfl
  | cons e l ih =>
    simp only [entriesFromJson] at ih
    simp [entriesFromJson, entriesFromJsonList, entryFromJson_toJson, ih, exceptBind_ok]

/-! ## Evaluation of the fixtures -/

lemma testClose_length : testClose.length = 121 := by simp [testClose]

lemma priceOf_testClose : priceOf testClose = 100 := by
  simp [priceOf, testClose, List.getD_eq_getElem?_getD, List.getElem?_replicate]

lemma prevPriceOf_testClose : prevPriceOf testClose = 100 := by
  simp [prevPriceOf, testClose, List.getD_eq_getElem?_getD, List.getElem?_replicate]

lemma rollingMean_testClose (w i : Nat) (hw : w ≠ 0) (hi : w ≤ i + 1) (hn : i < 121) :
    rollingMean testClose w i = some 100 := by
  have hwq : (w : ℚ) ≠ 0 := Nat.cast_ne_zero.mpr hw
  unfold rollingMean testClose
  rw [if_neg (by omega), List.drop_replicate, List.take_replicate,
      show w ⊓ (121 - (i + 1 - w)) = w by omega, List.sum_replicate, nsmul_eq_mul,
      mul_div_cancel_left₀ _ hwq]

lemma longSignal_testClose (p : StrategyParams) (hf : p.ma_fast = 10) :
    longSignal p testClose = false := by
  unfold longSignal
  rw [hf, testClose_length]
  norm_num [prevPriceOf_testClose,
            rollingMean_testClose 10 119 (by norm_num) (by norm_num) (by norm_num)]

lemma shortSignal_testClose (p : StrategyParams) (hf : p.ma_fast = 10) :
    shortSignal p testClose = false := by
  unfold shortSignal
  rw [hf, testClose_length]
  norm_num [prevPriceOf_testClose,
            rollingMean_testClose 10 119 (by norm_num) (by norm_num) (by norm_num)]

lemma crossClose_length : crossClose.length = 121 := by simp [crossClose]

lemma priceOf_crossClose : priceOf crossClose = 200 := by
  rw [priceOf, crossClose_length]
  simp [crossClose, List.getElem?_append_right, List.getD_eq_getElem?_getD]

lemma prevPriceOf_crossClose : prevPriceOf crossClose = 90 := by
  rw [prevPriceOf, crossClose_length]
  simp [crossClose, List.getElem?_append_right, List.getD_eq_getElem?_getD]

lemma rollingMean_crossClose_fast119 : rollingMean crossClose 10 119 = some 99 := by
  unfold rollingMean crossClose
  norm_num [List.drop_append_eq_append_drop, List.take_append_eq_append_take,
            List.drop_replicate, List.take_replicate, List.sum_append, List.sum_replicate,
            nsmul_eq_mul]

lemma rollingMean_crossClose_fast120 : rollingMean crossClose 10 120 = some 109 := by
  unfold rollingMean crossClose
  norm_num [List.drop_append_eq_append_drop, List.take_append_eq_append_take,
            List.drop_replicate, List.take_replicate, List.sum_append, List.sum_replicate,
            nsmul_eq_mul]

lemma rollingMean_crossClose_slow119 : rollingMean crossClose 20 119 = some (199/2) := by
  unfold rollingMean crossClose
  norm_num [List.drop_append_eq_append_drop, List.take_append_eq_append_take,
            List.drop_replicate, List.take_replicate, List.sum_append, List.sum_replicate,
            nsmul_eq_mul]

lemma rollingMean_crossClose_slow120 : rollingMean crossClose 20 120 = some (209/2) := by
  unfold rollingMean crossClose
  norm_num [List.drop_append_eq_append_drop, List.take_append_eq_append_take,
            List.drop_replicate, List.take_replicate, List.sum_append, List.sum_replicate,
            nsmul_eq_mul]

lemma rollingMean_crossClose_ma120 : rollingMean crossClose 120 120 = some (403/4) := by
  unfold rollingMean crossClose
  norm_num [List.drop_append_eq_append_drop, List.take_append_eq_append_take,
            List.drop_replicate, List.take_replicate, List.sum_append, List.sum_replicate,
            nsmul_eq_mul]

lemma longSignal_crossClose (p : StrategyParams) (hf : p.ma_fast = 10)
    (hs : p.ma_slow = 20) : longSignal p crossClose = true := by
  unfold longSignal
  rw [hf, hs, crossClose_length]
  norm_num [prevPriceOf_crossClose, priceOf_crossClose, rollingMean_crossClose_fast119,
            rollingMean_crossClose_fast120, rollingMean_crossClose_slow119,
            rollingMean_crossClose_slow120, rollingMean_crossClose_ma120]

lemma kwargReq_none {α : Type} (kvs : List (String × Json)) (k : String)
    (f : Json → Except String α) (h : Json.lookup kvs k = none) :
    kwargReq kvs k f = .error ("TypeError: missing required argument " ++ k) := by
  unfold kwargReq
  rw [h]

lemma entryFromJson_obj (ps : List (String × Json)) :
    entryFromJson (.obj ps) =
      (if (ps.any fun kv => decide (kv.1 ∉ ["price", "size", "tp1_done"])) = true then
        .error "TypeError: unexpected keyword argument"
      else do
        let price ← kwargReq ps "price" Json.asRat
        let size ← kwargReq ps "size" Json.asRat
        let tp1_done ← kwarg ps "tp1_done" false Json.asBool
        .ok ⟨price, size, tp1_done⟩) := rfl

lemma entryFromJson_missing (ps : List (String × Json))
    (h : Json.lookup ps "price" = none ∨ Json.lookup ps "size" = none) :
    ∃ msg, entryFromJson (.obj ps) = .error msg := by
  rw [entryFromJson_obj]
  by_cases hk : (ps.any fun kv => decide (kv.1 ∉ ["price", "size", "tp1_done"])) = true
  · exact ⟨"TypeError: unexpected keyword argument", by rw [if_pos hk]⟩
  · rw [if_neg hk]
    rcases h with h | h
    · exact ⟨"TypeError: missing required argument " ++ "price",
        by rw [kwargReq_none _ _ _ h]; rfl⟩
    · rcases hp : kwargReq ps "price" Json.asRat with msg | v
      · exact ⟨msg, rfl⟩
      · exact ⟨"TypeError: missing required argument " ++ "size",
          by rw [exceptBind_ok, kwargReq_none _ _ _ h]; rfl⟩

lemma entriesFromJsonList_error (xs : List Json) (x : Json) (hx : x ∈ xs)
    (he : ∃ m, entryFromJson x = .error m) :
    ∃ msg, entriesFromJsonList xs = .error msg := by
  induction xs with
  | nil => cases hx
  | cons y ys ih =>
    rcases hy : entryFromJson y with m | v
    · exact ⟨m, by simp [entriesFromJsonList, hy, exceptBind_error]⟩
    · rcases List.mem_cons.mp hx with rfl | hx2
      · obtain ⟨m, hm⟩ := he
        rw [hy] at hm
        cases hm
      · obtain ⟨msg, hmsg⟩ := ih hx2
        exact ⟨msg, by simp [entriesFromJsonList, hy, hmsg, exceptBind_ok, exceptBind_error]⟩

lemma from_json_obj (kvs : List (String × Json)) :
    StrategyState.from_json (.obj kvs) =
      (do
        let params ← paramsFromJson ((Json.lookup kvs "params").getD (.obj []))
        let long_entries ← entriesFromJson ((Json.lookup kvs "long_entries").getD (.arr []))
        let short_entries ← entriesFromJson ((Json.lookup kvs "short_entries").getD (.arr []))
        let completed_long_trades ← counterFromJson kvs "completed_long_trades"
        let completed_short_trades ← counterFromJson kvs "completed_short_trades"
        .ok ⟨params, long_entries, short_entries,
             completed_long_trades, completed_short_trades⟩) := rfl

/-! ## Further structural lemmas for the claims -/

lemma exitScan_actions_length (s : StrategyState) (price : ℚ) :
    (exitScan s price).2.length ≤ 1 := by
  unfold exitScan
  rcases scanLongRev s.params price s.long_entries.reverse with _ | ⟨rev, a, inc⟩
  · rcases scanShortRev s.params price s.short_entries.reverse with _ | ⟨rev, a, inc⟩ <;> simp
  · simp

lemma scanLongRev_size_pos (p : StrategyParams) (price : ℚ)
    (hp0 : 0 < p.tp1_sell_prop) (hp1 : p.tp1_sell_prop < 1) :
    ∀ (l l' : List Entry) (a : Action) (inc : Bool),
      (∀ e ∈ l, 0 < e.size) → scanLongRev p price l = some (l', a, inc) →
      ∀ e ∈ l', 0 < e.size := by
  intro l
  induction l with
  | nil => intro l' a inc _ hres; cases hres
  | cons e rest ih =>
    intro l' a inc hl hres
    have he : 0 < e.size := hl e (List.mem_cons_self e rest)
    have hrest : ∀ x ∈ rest, 0 < x.size := fun x hx => hl x (List.mem_cons_of_mem e hx)
    simp only [scanLongRev] at hres
    split at hres
    · simp only [Option.some.injEq, Prod.mk.injEq] at hres
      obtain ⟨h1, -, -⟩ := hres
      subst h1
      intro x hx
      rcases List.mem_cons.mp hx with rfl | hx2
      · have : e.size - e.size * p.tp1_sell_prop = e.size * (1 - p.tp1_sell_prop) := by ring
        simpa [this] using mul_pos he (by linarith)
      · exact hrest x hx2
    · split at hres
      · simp only [Option.some.injEq, Prod.mk.injEq] at hres
        obtain ⟨h1, -, -⟩ := hres
        subst h1
        exact hrest
      · split at hres
        · simp only [Option.some.injEq, Prod.mk.injEq] at hres
          obtain ⟨h1, -, -⟩ := hres
          subst h1
          exact hrest
        · rcases hmap : scanLongRev p price rest with _ | r
          · rw [hmap] at hres
            cases hres
          · rw [hmap] at hres
            simp only [Option.map_some', Option.some.injEq, Prod.mk.injEq] at hres
            obtain ⟨h1, -⟩ := hres
            subst h1
            intro x hx
            rcases List.mem_cons.mp hx with rfl | hx2
            · exact he
            · exact ih r.1 r.2.1 r.2.2 hrest (by rw [hmap]) x hx2

lemma scanShortRev_size_pos (p : StrategyParams) (price : ℚ)
    (hp0 : 0 < p.tp1_sell_prop) (hp1 : p.tp1_sell_prop < 1) :
    ∀ (l l' : List Entry) (a : Action) (inc : Bool),
      (∀ e ∈ l, 0 < e.size) → scanShortRev p price l = some (l', a, inc) →
      ∀ e ∈ l', 0 < e.size := by
  intro l
  induction l with
  | nil => intro l' a inc _ hres; cases hres
  | cons e rest ih =>
    intro l' a inc hl hres
    have he : 0 < e.size := hl e (List.mem_cons_self e rest)
    have hrest : ∀ x ∈ rest, 0 < x.size := fun x hx => hl x (List.mem_cons_of_mem e hx)
    simp only [scanShortRev] at hres
    split at hres
    · simp only [Option.some.injEq, Prod.mk.injEq] at hres
      obtain ⟨h1, -, -⟩ := hres
      subst h1
      intro x hx
      rcases List.mem_cons.mp hx with rfl | hx2
      · have : e.size - e.size * p.tp1_sell_prop = e.size * (1 - p.tp1_sell_prop) := by ring
        simpa [this] using mul_pos he (by linarith)
      · exact hrest x hx2
    · split at hres
      · simp only [Option.some.injEq, Prod.mk.injEq] at hres
        obtain ⟨h1, -, -⟩ := hres
        subst h1
        exact hrest
      · split at hres
        · simp only [Option.some.injEq, Prod.mk.injEq] at hres
          obtain ⟨h1, -, -⟩ := hres
          subst h1
          exact hrest
        · rcases hmap : scanShortRev p price rest with _ | r
          · rw [hmap] at hres
            cases hres
          · rw [hmap] at hres
            simp only [Option.map_some', Option.some.injEq, Prod.mk.injEq] at hres
            obtain ⟨h1, -⟩ := hres
            subst h1
            intro x hx
            rcases List.mem_cons.mp hx with rfl | hx2
            · exact he
            · exact ih r.1 r.2.1 r.2.2 hrest (by rw [hmap]) x hx2

lemma exitScan_size_pos (s : StrategyState) (price : ℚ)
    (hp0 : 0 < s.params.tp1_sell_prop) (hp1 : s.params.tp1_sell_prop < 1)
    (hl : ∀ e ∈ s.long_entries, 0 < e.size) (hs : ∀ e ∈ s.short_entries, 0 < e.size) :
    (∀ e ∈ (exitScan s price).1.long_entries, 0 < e.size) ∧
    (∀ e ∈ (exitScan s price).1.short_entries, 0 < e.size) := by
  unfold exitScan
  rcases hres : scanLongRev s.params price s.long_entries.reverse with _ | ⟨rev, a, inc⟩
  · rcases hres2 : scanShortRev s.params price s.short_entries.reverse with _ | ⟨rev, a, inc⟩
    · exact ⟨hl, hs⟩
    · refine ⟨hl, ?_⟩
      intro e he
      rw [List.mem_reverse] at he
      exact scanShortRev_size_pos s.params price hp0 hp1 s.short_entries.reverse rev a inc
        (fun x hx => hs x (List.mem_reverse.mp hx)) hres2 e he
  · refine ⟨?_, hs⟩
    intro e he
    rw [List.mem_reverse] at he
    exact scanLongRev_size_pos s.params price hp0 hp1 s.long_entries.reverse rev a inc
      (fun x hx => hl x (List.mem_reverse.mp hx)) hres e he

/-! ## Guard facts for the fixtures -/

lemma testDF_hc : "close" ∈ testDF.columns := by simp [testDF]

lemma testDF_hlen (p : StrategyParams) (hf : p.ma_fast = 10) (hs : p.ma_slow = 20) :
    ¬ testDF.close.length < maxPeriod p + 1 := by
  simp [testDF, testClose, maxPeriod, hf, hs]

lemma testDF_hpx : ¬ priceOf testDF.close ≤ 0 := by
  rw [show testDF.close = testClose from rfl, priceOf_testClose]
  norm_num

lemma testDF_hno (p : StrategyParams) (hf : p.ma_fast = 10) (av cash : ℚ) :
    (longSignal p testDF.close && decide (cash ≥ av * p.buy_pct)) = false := by
  rw [show testDF.close = testClose from rfl, longSignal_testClose p hf]
  rfl

lemma testDF_hns (p : StrategyParams) (hf : p.ma_fast = 10) :
    shortSignal p testDF.close = false := by
  rw [show testDF.close = testClose from rfl]
  exact shortSignal_testClose p hf

lemma crossDF_hc : "close" ∈ crossDF.columns := by simp [crossDF]

lemma crossDF_hlen (p : StrategyParams) (hf : p.ma_fast = 10) (hs : p.ma_slow = 20) :
    ¬ crossDF.close.length < maxPeriod p + 1 := by
  simp [crossDF, crossClose, maxPeriod, hf, hs]

lemma crossDF_hpx : ¬ priceOf crossDF.close ≤ 0 := by
  rw [show crossDF.close = crossClose from rfl, priceOf_crossClose]
  norm_num

/-! ## Claim theorems -/

/-- C1: when no new entry is opened on a bar, `process_bar` scans long
entries newest-to-oldest and then (only if no long entry trips) short entries
likewise; within each entry the checks run in the order tier-1 take-profit,
stop-loss, tier-2 take-profit, and the first condition that trips anywhere
yields the single emitted action with the scan stopping there — i.e. the
result coincides with the spec-side `specExitScan` first-hit description. -/
theorem c1_first_hit_scan_order (s : StrategyState) (df : DataFrame) (av cash : ℚ)
    (hc : "close" ∈ df.columns)
    (hlen : ¬ df.close.length < maxPeriod s.params + 1)
    (hpx : ¬ priceOf df.close ≤ 0)
    (hno : (longSignal s.params df.close && decide (cash ≥ av * s.params.buy_pct)) = false)
    (hns : shortSignal s.params df.close = false) :
    process_bar s df av cash = specExitScan s (priceOf df.close) :=
  (process_bar_noOpen s df av cash hc hlen hpx hno hns).trans
    (exitScan_eq_specExitScan s (priceOf df.close))

/-- Witness for C1 at a concrete no-signal bar with one long entry. -/
theorem c1_witness :
    process_bar tpState testDF 1000 1000 = specExitScan tpState (priceOf testDF.close) :=
  c1_first_hit_scan_order tpState testDF 1000 1000 testDF_hc
    (testDF_hlen tpState.params rfl rfl) testDF_hpx
    (testDF_hno tpState.params rfl 1000 1000) (testDF_hns tpState.params rfl)

/-- C5: a single `process_bar` invocation returns at most one action, for
every input series, account equity, cash value and starting state. -/
theorem c5_at_most_one_action (s : StrategyState) (df : DataFrame) (av cash : ℚ) :
    (process_bar s df av cash).2.length ≤ 1 := by
  unfold process_bar
  by_cases hc : "close" ∈ df.columns
  · by_cases hlen : df.close.length < maxPeriod s.params + 1
    · simp [hc, hlen]
    · by_cases hpx : priceOf df.close ≤ 0
      · simp [hc, hlen, hpx]
      · by_cases hsig : (longSignal s.params df.close
            && decide (cash ≥ av * s.params.buy_pct)) = true
        · simp [hc, hlen, hpx, hsig, openLong]
        · by_cases hss : shortSignal s.params df.close = true
          · simp [hc, hlen, hpx, hsig, hss, openShort]
          · simp only [hc, hlen, hpx, hsig, hss]
            simp [exitScan_actions_length]
  · simp [hc]

/-- C6: serialization round-trip — deserializing the serialized form of any
`StrategyState` (any params, entries, `tp1_done` flags and counters)
reproduces it field-for-field. -/
theorem c6_serialization_roundtrip (s : StrategyState) :
    StrategyState.from_json s.to_json = Except.ok s := by
  unfold StrategyState.to_json
  rw [from_json_obj]
  simp [Json.lookup, paramsFromJson_toJson, entriesFromJson_toJson, counterFromJson, kwarg,
        Json.asInt, Rat.den_intCast, Rat.num_intCast, exceptBind_ok]

/-- C8: `process_bar` is a no-op returning no action whenever the bar frame
lacks a `close` column, the series is shorter than
`max(ma_fast, ma_slow, 120) + 1`, or the current close is non-positive —
regardless of ledger contents. -/
theorem c8_degraded_noop (s : StrategyState) (df : DataFrame) (av cash : ℚ)
    (h : "close" ∉ df.columns ∨ df.close.length < maxPeriod s.params + 1 ∨
         priceOf df.close ≤ 0) :
    process_bar s df av cash = (s, []) :=
  process_bar_degraded s df av cash h

/-- Witness for C8 at a frame with no `close` column. -/
theorem c8_witness :
    process_bar tpState (DataFrame.mk [] []) 0 0 = (tpState, []) :=
  c8_degraded_noop tpState (DataFrame.mk [] []) 0 0 (Or.inl (by simp))

/-- C2: on a no-open bar, an entry with `tp1_done = false` whose pnl reaches
`tp1_pct` that is the first trigger in the scan yields one tier-1 action of
size `originalSize × tp1_sell_prop`; the entry stays in its ledger with
`tp1_done = true` and size `originalSize × (1 − tp1_sell_prop)`, and neither
completed-trade counter moves (the conjuncts cover the long and short
ledgers, with their respective pnl formulas). -/
theorem c2_tier1_partial_close (s : StrategyState) (df : DataFrame) (av cash : ℚ)
    (hc : "close" ∈ df.columns)
    (hlen : ¬ df.close.length < maxPeriod s.params + 1)
    (hpx : ¬ priceOf df.close ≤ 0)
    (hno : (longSignal s.params df.close && decide (cash ≥ av * s.params.buy_pct)) = false)
    (hns : shortSignal s.params df.close = false) :
    (∀ (l₁ : List Entry) (e : Entry) (l₂ : List Entry),
        s.long_entries = l₁ ++ e :: l₂ →
        (∀ x ∈ l₂, longHit s.params (priceOf df.close) x = false) →
        e.tp1_done = false →
        priceOf df.close / e.price - 1 ≥ s.params.tp1_pct →
        process_bar s df av cash =
          ({ s with long_entries := l₁ ++
              { e with tp1_done := true,
                       size := e.size * (1 - s.params.tp1_sell_prop) } :: l₂ },
           [⟨"tp1_long", "sell", e.size * s.params.tp1_sell_prop,
             priceOf df.close, none⟩])) ∧
    (∀ (l₁ : List Entry) (e : Entry) (l₂ : List Entry),
        (∀ x ∈ s.long_entries, longHit s.params (priceOf df.close) x = false) →
        s.short_entries = l₁ ++ e :: l₂ →
        (∀ x ∈ l₂, shortHit s.params (priceOf df.close) x = false) →
        e.tp1_done = false →
        e.price / priceOf df.close - 1 ≥ s.params.tp1_pct →
        process_bar s df av cash =
          ({ s with short_entries := l₁ ++
              { e with tp1_done := true,
                       size := e.size * (1 - s.params.tp1_sell_prop) } :: l₂ },
           [⟨"tp1_short", "buy", e.size * s.params.tp1_sell_prop,
             priceOf df.close, none⟩])) := by
  constructor
  · intro l₁ e l₂ hsplit hpost hdone htp1
    rw [process_bar_noOpen s df av cash hc hlen hpx hno hns]
    have hcond : (!e.tp1_done
        && decide (priceOf df.close / e.price - 1 ≥ s.params.tp1_pct)) = true := by
      rw [hdone]
      simpa using htp1
    have hhit : longHit s.params (priceOf df.close) e = true := by
      rw [longHit, hcond]
      rfl
    rw [exitScan_long_first s (priceOf df.close) l₁ e l₂ hsplit hpost hhit]
    unfold specLongOutcome
    rw [if_pos hcond]
    simp [mul_one_sub]
  · intro l₁ e l₂ hlong hsplit hpost hdone htp1
    rw [process_bar_noOpen s df av cash hc hlen hpx hno hns]
    have hcond : (!e.tp1_done
        && decide (e.price / priceOf df.close - 1 ≥ s.params.tp1_pct)) = true := by
      rw [hdone]
      simpa using htp1
    have hhit : shortHit s.params (priceOf df.close) e = true := by
      rw [shortHit, hcond]
      rfl
    rw [exitScan_short_first s (priceOf df.close) l₁ e l₂ hlong hsplit hpost hhit]
    unfold specShortOutcome
    rw [if_pos hcond]
    simp [mul_one_sub]

/-- Witness for C2: one long entry bought at 50, bar at 100, default params —
a tier-1 action of size 0.9 and a retained entry of size 0.1. -/
theorem c2_witness :
    process_bar tpState testDF 1000 0 =
      ({ tpState with long_entries := [] ++
          { (⟨50, 1, false⟩ : Entry) with
              tp1_done := true,
              size := (1 : ℚ) * (1 - tpState.params.tp1_sell_prop) } :: [] },
       [⟨"tp1_long", "sell", (1 : ℚ) * tpState.params.tp1_sell_prop,
         priceOf testDF.close, none⟩]) :=
  (c2_tier1_partial_close tpState testDF 1000 0 testDF_hc
      (testDF_hlen tpState.params rfl rfl) testDF_hpx
      (testDF_hno tpState.params rfl 1000 0) (testDF_hns tpState.params rfl)).1
    [] ⟨50, 1, false⟩ [] rfl (by simp) rfl
    (by rw [show testDF.close = testClose from rfl, priceOf_testClose]; norm_num [tpState])

/-- C3: on a no-open bar, for the first-triggering entry: with `tp1_done`
already true and pnl ≥ `tp2_pct` (its stop-loss check not tripping), the
entry is removed, a tier-2 action for the full remaining size is emitted and
exactly the matching side's completed-trade counter increments by one; with
the stop-loss condition tripping instead (its tier-1 check not tripping), the
entry is removed, a stop-loss action for the full remaining size is emitted
and no counter moves. Four conjuncts: long tier-2, long stop-loss, short
tier-2, short stop-loss. -/
theorem c3_full_exits (s : StrategyState) (df : DataFrame) (av cash : ℚ)
    (hc : "close" ∈ df.columns)
    (hlen : ¬ df.close.length < maxPeriod s.params + 1)
    (hpx : ¬ priceOf df.close ≤ 0)
    (hno : (longSignal s.params df.close && decide (cash ≥ av * s.params.buy_pct)) = false)
    (hns : shortSignal s.params df.close = false) :
    (∀ (l₁ : List Entry) (e : Entry) (l₂ : List Entry),
        s.long_entries = l₁ ++ e :: l₂ →
        (∀ x ∈ l₂, longHit s.params (priceOf df.close) x = false) →
        e.tp1_done = true →
        should_stop_loss e.price (priceOf df.close) "long" s.params.sl_pct = false →
        priceOf df.close / e.price - 1 ≥ s.params.tp2_pct →
        process_bar s df av cash =
          ({ s with long_entries := l₁ ++ l₂,
                    completed_long_trades := s.completed_long_trades + 1 },
           [⟨"tp2_long", "sell", e.size, priceOf df.close, none⟩])) ∧
    (∀ (l₁ : List Entry) (e : Entry) (l₂ : List Entry),
        s.long_entries = l₁ ++ e :: l₂ →
        (∀ x ∈ l₂, longHit s.params (priceOf df.close) x = false) →
        (!e.tp1_done
          && decide (priceOf df.close / e.price - 1 ≥ s.params.tp1_pct)) = false →
        should_stop_loss e.price (priceOf df.close) "long" s.params.sl_pct = true →
        process_bar s df av cash =
          ({ s with long_entries := l₁ ++ l₂ },
           [⟨"sl_long", "sell", e.size, priceOf df.close, none⟩])) ∧
    (∀ (l₁ : List Entry) (e : Entry) (l₂ : List Entry),
        (∀ x ∈ s.long_entries, longHit s.params (priceOf df.close) x = false) →
        s.short_entries = l₁ ++ e :: l₂ →
        (∀ x ∈ l₂, shortHit s.params (priceOf df.close) x = false) →
        e.tp1_done = true →
        should_stop_loss e.price (priceOf df.close) "short" s.params.sl_pct = false →
        e.price / priceOf df.close - 1 ≥ s.params.tp2_pct →
        process_bar s df av cash =
          ({ s with short_entries := l₁ ++ l₂,
                    completed_short_trades := s.completed_short_trades + 1 },
           [⟨"tp2_short", "buy", e.size, priceOf df.close, none⟩])) ∧
    (∀ (l₁ : List Entry) (e : Entry) (l₂ : List Entry),
        (∀ x ∈ s.long_entries, longHit s.params (priceOf df.close) x = false) →
        s.short_entries = l₁ ++ e :: l₂ →
        (∀ x ∈ l₂, shortHit s.params (priceOf df.close) x = false) →
        (!e.tp1_done
          && decide (e.price / priceOf df.close - 1 ≥ s.params.tp1_pct)) = false →
        should_stop_loss e.price (priceOf df.close) "short" s.params.sl_pct = true →
        process_bar s df av cash =
          ({ s with short_entries := l₁ ++ l₂ },
           [⟨"sl_short", "buy", e.size, priceOf df.close, none⟩])) := by
  refine ⟨?_, ?_, ?_, ?_⟩
  · intro l₁ e l₂ hsplit hpost hdone hsl htp2
    rw [process_bar_noOpen s df av cash hc hlen hpx hno hns]
    have hc1 : (!e.tp1_done
        && decide (priceOf df.close / e.price - 1 ≥ s.params.tp1_pct)) = false := by
      rw [hdone]
      rfl
    have hc3 : (e.tp1_done
        && decide (priceOf df.close / e.price - 1 ≥ s.params.tp2_pct)) = true := by
      rw [hdone]
      simpa using htp2
    have hhit : longHit s.params (priceOf df.close) e = true := by
      rw [longHit, hc3]
      simp
    rw [exitScan_long_first s (priceOf df.close) l₁ e l₂ hsplit hpost hhit]
    unfold specLongOutcome
    rw [if_neg (by rw [hc1]; exact Bool.false_ne_true),
        if_neg (by rw [hsl]; exact Bool.false_ne_true)]
    simp
  · intro l₁ e l₂ hsplit hpost hc1 hsl
    rw [process_bar_noOpen s df av cash hc hlen hpx hno hns]
    have hhit : longHit s.params (priceOf df.close) e = true := by
      rw [longHit, hsl]
      simp
    rw [exitScan_long_first s (priceOf df.close) l₁ e l₂ hsplit hpost hhit]
    unfold specLongOutcome
    rw [if_neg (by rw [hc1]; exact Bool.false_ne_true), if_pos hsl]
    simp
  · intro l₁ e l₂ hlong hsplit hpost hdone hsl htp2
    rw [process_bar_noOpen s df av cash hc hlen hpx hno hns]
    have hc1 : (!e.tp1_done
        && decide (e.price / priceOf df.close - 1 ≥ s.params.tp1_pct)) = false := by
      rw [hdone]
      rfl
    have hc3 : (e.tp1_done
        && decide (e.price / priceOf df.close - 1 ≥ s.params.tp2_pct)) = true := by
      rw [hdone]
      simpa using htp2
    have hhit : shortHit s.params (priceOf df.close) e = true := by
      rw [shortHit, hc3]
      simp
    rw [exitScan_short_first s (priceOf df.close) l₁ e l₂ hlong hsplit hpost hhit]
    unfold specShortOutcome
    rw [if_neg (by rw [hc1]; exact Bool.false_ne_true),
        if_neg (by rw [hsl]; exact Bool.false_ne_true)]
    simp
  · intro l₁ e l₂ hlong hsplit hpost hc1 hsl
    rw [process_bar_noOpen s df av cash hc hlen hpx hno hns]
    have hhit : shortHit s.params (priceOf df.close) e = true := by
      rw [shortHit, hsl]
      simp
    rw [exitScan_short_first s (priceOf df.close) l₁ e l₂ hlong hsplit hpost hhit]
    unfold specShortOutcome
    rw [if_neg (by rw [hc1]; exact Bool.false_ne_true), if_pos hsl]
    simp

/-- Witness for C3: one long entry at 50 with tier-1 done, bar at 100
(pnl = 1 ≥ `tp2_pct`), default params — tier-2 removes it and increments the
long counter. -/
theorem c3_witness :
    process_bar tp2State testDF 1000 0 =
      ({ tp2State with long_entries := ([] : List Entry) ++ [],
                       completed_long_trades := tp2State.completed_long_trades + 1 },
       [⟨"tp2_long", "sell", (1 : ℚ), priceOf testDF.close, none⟩]) :=
  (c3_full_exits tp2State testDF 1000 0 testDF_hc
      (testDF_hlen tp2State.params rfl rfl) testDF_hpx
      (testDF_hno tp2State.params rfl 1000 0) (testDF_hns tp2State.params rfl)).1
    [] ⟨50, 1, true⟩ [] rfl (by simp) rfl
    (by rw [show testDF.close = testClose from rfl, priceOf_testClose]
        unfold should_stop_loss
        norm_num [tp2State])
    (by rw [show testDF.close = testClose from rfl, priceOf_testClose]; norm_num [tp2State])

/-- C4: on a bullish crossover, with `buyAmount = accountEquity × buy_pct`
and cash ≥ buyAmount, `process_bar` appends a long entry of size
`buyAmount / price` (tp1_done false) and returns exactly the one `open_long`
action, running no exit checks; with cash insufficient it falls through to
the bearish check; on a bearish crossover (the bullish open not having
fired) it appends a short entry sized the same way and returns the one
`open_short` action with no cash gate at all. -/
theorem c4_crossover_open (s : StrategyState) (df : DataFrame) (av cash : ℚ)
    (hc : "close" ∈ df.columns)
    (hlen : ¬ df.close.length < maxPeriod s.params + 1)
    (hpx : ¬ priceOf df.close ≤ 0) :
    (longSignal s.params df.close = true → cash ≥ av * s.params.buy_pct →
      process_bar s df av cash =
        ({ s with long_entries := s.long_entries ++
            [⟨priceOf df.close, av * s.params.buy_pct / priceOf df.close, false⟩] },
         [⟨"open_long", "buy", av * s.params.buy_pct / priceOf df.close,
           priceOf df.close, some (av * s.params.buy_pct)⟩])) ∧
    ((longSignal s.params df.close = false ∨ cash < av * s.params.buy_pct) →
      shortSignal s.params df.close = true →
      process_bar s df av cash =
        ({ s with short_entries := s.short_entries ++
            [⟨priceOf df.close, av * s.params.buy_pct / priceOf df.close, false⟩] },
         [⟨"open_short", "sell", av * s.params.buy_pct / priceOf df.close,
           priceOf df.close, some (av * s.params.buy_pct)⟩])) := by
  constructor
  · intro hsig hcash
    rw [process_bar_openLong s df av cash hc hlen hpx hsig hcash]
    rfl
  · intro hnol hsig
    have hno : (longSignal s.params df.close
        && decide (cash ≥ av * s.params.buy_pct)) = false := by
      rcases hnol with h | h
      · rw [h]
        rfl
      · have : ¬ cash ≥ av * s.params.buy_pct := not_le.mpr h
        simp [this]
    rw [process_bar_openShort s df av cash hc hlen hpx hno hsig]
    rfl

/-- Witness for C4: the bullish-crossover fixture opens a long entry. -/
theorem c4_witness :
    process_bar tpState crossDF 1000 1000 =
      ({ tpState with long_entries := tpState.long_entries ++
          [⟨priceOf crossDF.close, 1000 * tpState.params.buy_pct / priceOf crossDF.close,
            false⟩] },
       [⟨"open_long", "buy", 1000 * tpState.params.buy_pct / priceOf crossDF.close,
         priceOf crossDF.close, some (1000 * tpState.params.buy_pct)⟩]) :=
  (c4_crossover_open tpState crossDF 1000 1000 crossDF_hc
      (crossDF_hlen tpState.params rfl rfl) crossDF_hpx).1
    (by rw [show crossDF.close = crossClose from rfl]
        exact longSignal_crossClose tpState.params rfl rfl)
    (by norm_num [tpState])

/-- C9: under the precondition that every ledger entry has a positive price,
`process_bar` performs every one of its divisions (entry sizing by `price`,
long pnl by `entry.price`, short pnl and the stop-loss ratios by `price` or
`entry_price`) with a positive divisor: the division-checked variant never
fails and agrees with `process_bar` on every series, equity and cash. -/
theorem c9_no_division_hazard (s : StrategyState) (df : DataFrame) (av cash : ℚ)
    (hl : ∀ e ∈ s.long_entries, 0 < e.price) (hs : ∀ e ∈ s.short_entries, 0 < e.price) :
    process_bar_checked s df av cash = some (process_bar s df av cash) := by
  unfold process_bar_checked process_bar
  by_cases hc : "close" ∈ df.columns
  · by_cases hlen : df.close.length < maxPeriod s.params + 1
    · simp [hc, hlen]
    · by_cases hpx : priceOf df.close ≤ 0
      · simp [hc, hlen, hpx]
      · have hp : 0 < priceOf df.close := not_le.mp hpx
        by_cases hsig : (longSignal s.params df.close
            && decide (cash ≥ av * s.params.buy_pct)) = true
        · simp [hc, hlen, hpx, hsig, openLongChecked_eq s df.close av hp]
        · by_cases hss : shortSignal s.params df.close = true
          · simp [hc, hlen, hpx, hsig, hss, openShortChecked_eq s df.close av hp]
          · simp [hc, hlen, hpx, hsig, hss,
                  exitScanChecked_eq s (priceOf df.close) hl hp]
  · simp [hc]

/-- Witness for C9 at a short series and a ledger with a positive-price
entry. -/
theorem c9_witness :
    process_bar_checked tpState (DataFrame.mk ["close"] []) 7 3 =
      some (process_bar tpState (DataFrame.mk ["close"] []) 7 3) :=
  c9_no_division_hazard tpState (DataFrame.mk ["close"] []) 7 3
    (by intro e he
        simp [tpState] at he
        rw [he]
        norm_num)
    (by intro e he
        simp [tpState] at he)

/-- C7 counterexample: with `tp1_sell_prop = 1` (allowed by the claimed
bound `0 < tp1_sell_prop ≤ 1`) and a ledger whose only entry has positive
size, a tier-1 exit retains the entry with size 0 — an entry with
`size ≤ 0` now sits in the ledger. -/
theorem c7_counterexample :
    0 < retainState.params.tp1_sell_prop ∧ retainState.params.tp1_sell_prop ≤ 1 ∧
    retainState.long_entries = [⟨50, 1, false⟩] ∧ retainState.short_entries = [] ∧
    (process_bar retainState testDF 10 0).1.long_entries = [⟨50, 0, true⟩] := by
  refine ⟨by norm_num [retainState], by norm_num [retainState], rfl, rfl, ?_⟩
  rw [process_bar_noOpen retainState testDF 10 0 testDF_hc
        (testDF_hlen retainState.params rfl rfl) testDF_hpx
        (testDF_hno retainState.params rfl 10 0) (testDF_hns retainState.params rfl)]
  rw [show testDF.close = testClose from rfl, priceOf_testClose]
  unfold exitScan
  norm_num [retainState, scanLongRev]

/-- C7 (amended): for every state whose ledgers contain no entry with
`size ≤ 0`, a `process_bar` invocation with `0 < tp1_sell_prop < 1` and a
positive open notional `account_value × buy_pct` leaves the ledgers free of
entries with `size ≤ 0` (with `tp1_sell_prop = 1` a tier-1 exit retains a
size-0 entry, and with zero notional an open appends one, so the claimed
bound `tp1_sell_prop ≤ 1` must be strict and the notional positive). -/
theorem c7_amended (s : StrategyState) (df : DataFrame) (av cash : ℚ)
    (hp0 : 0 < s.params.tp1_sell_prop) (hp1 : s.params.tp1_sell_prop < 1)
    (hnot : 0 < av * s.params.buy_pct)
    (hl : ∀ e ∈ s.long_entries, 0 < e.size) (hs : ∀ e ∈ s.short_entries, 0 < e.size) :
    (∀ e ∈ (process_bar s df av cash).1.long_entries, 0 < e.size) ∧
    (∀ e ∈ (process_bar s df av cash).1.short_entries, 0 < e.size) := by
  by_cases hc : "close" ∈ df.columns
  · by_cases hlen : df.close.length < maxPeriod s.params + 1
    · rw [process_bar_degraded s df av cash (Or.inr (Or.inl hlen))]
      exact ⟨hl, hs⟩
    · by_cases hpx : priceOf df.close ≤ 0
      · rw [process_bar_degraded s df av cash (Or.inr (Or.inr hpx))]
        exact ⟨hl, hs⟩
      · have hp : 0 < priceOf df.close := not_le.mp hpx
        by_cases hsig : (longSignal s.params df.close
            && decide (cash ≥ av * s.params.buy_pct)) = true
        · rw [Bool.and_eq_true, decide_eq_true_eq] at hsig
          rw [process_bar_openLong s df av cash hc hlen hpx hsig.1 hsig.2]
          unfold openLong
          constructor
          · intro e he
            simp only [List.mem_append, List.mem_singleton] at he
            rcases he with he | he
            · exact hl e he
            · rw [he]
              exact div_pos hnot hp
          · exact hs
        · by_cases hss : shortSignal s.params df.close = true
          · have hno : (longSignal s.params df.close
                && decide (cash ≥ av * s.params.buy_pct)) = false := by
              simpa using hsig
            rw [process_bar_openShort s df av cash hc hlen hpx hno hss]
            unfold openShort
            constructor
            · exact hl
            · intro e he
              simp only [List.mem_append, List.mem_singleton] at he
              rcases he with he | he
              · exact hs e he
              · rw [he]
                exact div_pos hnot hp
          · have hno : (longSignal s.params df.close
                && decide (cash ≥ av * s.params.buy_pct)) = false := by
              simpa using hsig
            have hns : shortSignal s.params df.close = false := by
              simpa using hss
            rw [process_bar_noOpen s df av cash hc hlen hpx hno hns]
            exact exitScan_size_pos s (priceOf df.close) hp0 hp1 hl hs
  · rw [process_bar_degraded s df av cash (Or.inl hc)]
    exact ⟨hl, hs⟩

/-- Witness for the amended C7 at a concrete tier-1 bar with
`tp1_sell_prop = 0.9`. -/
theorem c7_witness :
    ((process_bar tpState testDF 10 0).1.long_entries.all
      fun e => decide (0 < e.size)) = true := by
  have h := c7_amended tpState testDF 10 0 (by norm_num [tpState]) (by norm_num [tpState])
    (by norm_num [tpState])
    (by intro e he
        simp [tpState] at he
        rw [he]
        norm_num)
    (by intro e he
        simp [tpState] at he)
  rw [List.all_eq_true]
  intro e he
  simpa using h.1 e he

/-- C10 counterexample: the empty snapshot object is missing the params, the
entry lists and both counters, yet `from_json` does not fail — it silently
returns the all-defaults state. -/
theorem c10_counterexample :
    StrategyState.from_json (Json.obj []) = Except.ok ({} : StrategyState) := rfl

/-- C10 (amended): `from_json` fails only below the entry level — an entry
record missing `price` or `size` makes deserialization fail — while a
snapshot missing `params`, the entry lists, or the counters silently
substitutes the dataclass defaults instead of raising. -/
theorem c10_fail_only_on_entries :
    (∀ (ps : List (String × Json)) (xs : List Json) (rest : List (String × Json)),
        Json.obj ps ∈ xs →
        (Json.lookup ps "price" = none ∨ Json.lookup ps "size" = none) →
        (StrategyState.from_json
          (Json.obj (("long_entries", Json.arr xs) :: rest))).isOk = false) ∧
    StrategyState.from_json (Json.obj []) = Except.ok ({} : StrategyState) := by
  constructor
  · intro ps xs rest hmem hmiss
    rw [from_json_obj]
    rcases hpar : paramsFromJson
        ((Json.lookup (("long_entries", Json.arr xs) :: rest) "params").getD
          (.obj [])) with m | p
    · rfl
    · rw [exceptBind_ok]
      have hle : Json.lookup (("long_entries", Json.arr xs) :: rest) "long_entries" =
          some (Json.arr xs) := by
        simp [Json.lookup]
      obtain ⟨msg, hmsg⟩ :=
        entriesFromJsonList_error xs (Json.obj ps) hmem (entryFromJson_missing ps hmiss)
      rw [hle, Option.getD_some,
          show entriesFromJson (Json.arr xs) = entriesFromJsonList xs from rfl, hmsg]
      rfl
  · rfl

/-- Witness for the amended C10: an entry record carrying only `size`. -/
theorem c10_witness :
    (StrategyState.from_json (Json.obj [("long_entries",
        Json.arr [Json.obj [("size", Json.num 1)]])])).isOk = false :=
  c10_fail_only_on_entries.1 [("size", Json.num 1)] [Json.obj [("size", Json.num 1)]] []
    (List.mem_singleton.mpr rfl) (Or.inl rfl)

end Engine
